import Mathlib

/-!
# Verification of the terminal-session bridge in `backend/main.py`

This file gives a shallow embedding of the WebSocket terminal endpoint
`terminal_websocket` (and its two inner coroutines `read_from_pty` and
`read_from_websocket`) of `src/backend/main.py`, and settles the frozen
claims about it.

Modelling conventions:
* Bytes are `Nat` (< 256 in intended use); Python `str` values are lists of
  Unicode code points (`List Nat`).
* The environment (the PTY device, the child process, the WebSocket client)
  is supplied as a script of observations; each flow is a function from its
  script to the actions it performs, translated line by line from the source.
* `bytes.decode("utf-8", errors="replace")` is modelled by `utf8DecodeReplace`,
  following CPython's decoder: invalid sequences are replaced by U+FFFD, one
  replacement per maximal subpart of a valid sequence.
-/

/-- Code points of a string literal (Python `str` as a list of code points). -/
def codes (s : String) : List Nat := s.data.map Char.toNat

/-- JSON values, as produced by `websocket.receive_json()` (Python `json.loads`). -/
inductive Json where
  | jnull : Json
  | jbool (b : Bool) : Json
  | jnum (n : Int) : Json
  | jstr (s : List Nat) : Json
  | jarr (xs : List Json) : Json
  | jobj (fields : List (List Nat × Json)) : Json

/-- Python equality between a JSON value and a `str`: true exactly when the
value is that string (`True == "input"`, `1 == "input"` are `False`). -/
def Json.isStr (j : Json) (s : List Nat) : Bool :=
  match j with
  | .jstr t => t = s
  | _ => false

/-- Lookup in a JSON object's field list.  Python's `json.loads` builds a
`dict` in which a later duplicate key overwrites an earlier one, so the
last binding wins; `dict.get` then returns it (or `None`). -/
def lookupLast (fields : List (List Nat × Json)) (k : List Nat) : Option Json :=
  match fields with
  | [] => none
  | (k1, v) :: rest =>
    match lookupLast rest k with
    | some v' => some v'
    | none => if k1 = k then some v else none

/-- The Unicode replacement character U+FFFD, inserted by
`errors="replace"`. -/
def replChar : Nat := 0xFFFD

/-- UTF-8 encoding of one code point (Python `str.encode("utf-8")`,
restricted to scalar values, which is all the relay ever encodes). -/
def utf8EncodeChar (c : Nat) : List Nat :=
  if c < 0x80 then [c]
  else if c < 0x800 then [0xC0 + c / 0x40, 0x80 + c % 0x40]
  else if c < 0x10000 then
    [0xE0 + c / 0x1000, 0x80 + (c / 0x40) % 0x40, 0x80 + c % 0x40]
  else
    [0xF0 + c / 0x40000, 0x80 + (c / 0x1000) % 0x40,
     0x80 + (c / 0x40) % 0x40, 0x80 + c % 0x40]

/-- UTF-8 encoding of a string of code points (`str.encode("utf-8")`). -/
def utf8Encode (s : List Nat) : List Nat := (s.map utf8EncodeChar).flatten

/-- Is `b` a UTF-8 continuation byte (`0x80..0xBF`)? -/
def isCont (b : Nat) : Bool := 0x80 ≤ b && b ≤ 0xBF

/-- Valid range of the first continuation byte after a three-byte lead:
`0xE0` requires `0xA0..0xBF` (no overlong forms) and `0xED` requires
`0x80..0x9F` (no surrogates); other leads take any continuation byte. -/
def cont3ok (b b1 : Nat) : Bool :=
  if b = 0xE0 then 0xA0 ≤ b1 && b1 ≤ 0xBF
  else if b = 0xED then 0x80 ≤ b1 && b1 ≤ 0x9F
  else isCont b1

/-- Valid range of the first continuation byte after a four-byte lead:
`0xF0` requires `0x90..0xBF` (no overlong forms) and `0xF4` requires
`0x80..0x8F` (≤ U+10FFFF); other leads take any continuation byte. -/
def cont4ok (b b1 : Nat) : Bool :=
  if b = 0xF0 then 0x90 ≤ b1 && b1 ≤ 0xBF
  else if b = 0xF4 then 0x80 ≤ b1 && b1 ≤ 0x8F
  else isCont b1

/-- Fuel-indexed worker for `utf8DecodeReplace`.  Each step consumes at
least one byte, so fuel `= length` suffices; the fuel only makes the
recursion structural. -/
def utf8DecodeGo : Nat → List Nat → List Nat
  | 0, _ => []
  | _ + 1, [] => []
  | fuel + 1, b :: rest =>
    if b < 0x80 then b :: utf8DecodeGo fuel rest
    else if b < 0xC2 then replChar :: utf8DecodeGo fuel rest
    else if b ≤ 0xDF then
      match rest with
      | [] => [replChar]
      | b1 :: rest1 =>
        if isCont b1 then
          ((b - 0xC0) * 0x40 + (b1 - 0x80)) :: utf8DecodeGo fuel rest1
        else replChar :: utf8DecodeGo fuel (b1 :: rest1)
    else if b ≤ 0xEF then
      match rest with
      | [] => [replChar]
      | b1 :: rest1 =>
        if cont3ok b b1 then
          match rest1 with
          | [] => [replChar]
          | b2 :: rest2 =>
            if isCont b2 then
              ((b - 0xE0) * 0x1000 + (b1 - 0x80) * 0x40 + (b2 - 0x80)) ::
                utf8DecodeGo fuel rest2
            else replChar :: utf8DecodeGo fuel (b2 :: rest2)
        else replChar :: utf8DecodeGo fuel (b1 :: rest1)
    else if b ≤ 0xF4 then
      match rest with
      | [] => [replChar]
      | b1 :: rest1 =>
        if cont4ok b b1 then
          match rest1 with
          | [] => [replChar]
          | b2 :: rest2 =>
            if isCont b2 then
              match rest2 with
              | [] => [replChar]
              | b3 :: rest3 =>
                if isCont b3 then
                  ((b - 0xF0) * 0x40000 + (b1 - 0x80) * 0x1000 +
                    (b2 - 0x80) * 0x40 + (b3 - 0x80)) :: utf8DecodeGo fuel rest3
                else replChar :: utf8DecodeGo fuel (b3 :: rest3)
            else replChar :: utf8DecodeGo fuel (b2 :: rest2)
        else replChar :: utf8DecodeGo fuel (b1 :: rest1)
    else replChar :: utf8DecodeGo fuel rest

/-- `bytes.decode("utf-8", errors="replace")`: lossy UTF-8 decoding, one
U+FFFD per maximal subpart of an invalid sequence. -/
def utf8DecodeReplace (bs : List Nat) : List Nat := utf8DecodeGo bs.length bs

/-! ## Frames and the output flow (`read_from_pty`, main.py lines 516-534) -/

/-- A frame sent by the server on the WebSocket (`websocket.send_json`):
either `{"type": "output", "data": ...}` or `{"type": "error", "data": ...}`. -/
inductive Frame where
  | output (data : List Nat) : Frame
  | error (data : List Nat) : Frame
deriving DecidableEq

/-- One loop iteration of `read_from_pty`, as observed from the PTY:
`dead` — `process.isalive()` returned `False`;
`data bs` — alive, and `process.read(1024)` returned the bytes `bs`;
`eof` — alive, and `process.read` raised `EOFError`;
`rerr` — alive, and `process.read` raised some other exception. -/
inductive PtyObs where
  | dead : PtyObs
  | data (bs : List Nat) : PtyObs
  | eof : PtyObs
  | rerr : PtyObs
deriving DecidableEq

/-- The output flow `read_from_pty`: per iteration, check `isalive` (stop
when false), read a chunk, and if it is nonempty send an `output` frame
whose data is the chunk decoded with `errors="replace"`; `EOFError` or any
other read error breaks the loop.  Returns the frames sent during the
scripted window. -/
def read_from_pty : List PtyObs → List Frame
  | [] => []
  | .dead :: _ => []
  | .eof :: _ => []
  | .rerr :: _ => []
  | .data bs :: rest =>
    if bs.isEmpty then read_from_pty rest
    else Frame.output (utf8DecodeReplace bs) :: read_from_pty rest

/-- `True` when the output flow returns within the scripted window (a
stop observation occurs: liveness check fails, EOF, or read error). -/
def ptyFlowStops : List PtyObs → Bool
  | [] => false
  | .dead :: _ => true
  | .eof :: _ => true
  | .rerr :: _ => true
  | .data _ :: rest => ptyFlowStops rest

/-- Concatenation of the `data` fields of the `output` frames of a frame
sequence, in order. -/
def outputData : List Frame → List Nat
  | [] => []
  | .output d :: rest => d ++ outputData rest
  | .error _ :: rest => outputData rest

/-! ## The input flow (`read_from_websocket`, main.py lines 537-547) -/

/-- One `await websocket.receive_json()` outcome:
`msg j` — a text message that parsed as JSON value `j`;
`parseError` — the message was not valid JSON (`receive_json` raises);
`disconnect` — the client disconnected (`WebSocketDisconnect`). -/
inductive WsRecv where
  | msg (j : Json) : WsRecv
  | parseError : WsRecv
  | disconnect : WsRecv

/-- An action the input flow performs on the PTY Supervisor.  `write` is
`process.write`; `resize` is the supervisor's resize operation — listed so
that its absence from the flow's traces is expressible (the source has no
branch that produces it). -/
inductive InAct where
  | write (bs : List Nat) : InAct
  | resize (cols rows : Int) : InAct
deriving DecidableEq

/-- Processing of one received message by `read_from_websocket`'s loop body:
`none` — an uncaught exception ends the flow (disconnect, JSON parse error,
`.get` on a non-dict, or `.encode` on a non-str `data`);
`some none` — the message is ignored and the loop continues
(`message.get("type") == "input"` is false);
`some (some a)` — action `a` is performed and the loop continues. -/
def procWsMsg : WsRecv → Option (Option InAct)
  | .disconnect => none
  | .parseError => none
  | .msg (.jobj fields) =>
    match lookupLast fields (codes "type") with
    | some t =>
      if t.isStr (codes "input") then
        match lookupLast fields (codes "data") with
        | none => some (some (.write (utf8Encode [])))
        | some (.jstr s) => some (some (.write (utf8Encode s)))
        | some _ => none
      else some none
    | none => some none
  | .msg _ => none

/-- The input flow `read_from_websocket`: receive messages forever, writing
the UTF-8 encoding of each `input` frame's `data` to the PTY, until an
uncaught exception (disconnect or error) ends the flow.  Returns the
supervisor actions performed during the scripted window. -/
def read_from_websocket : List WsRecv → List InAct
  | [] => []
  | m :: rest =>
    match procWsMsg m with
    | none => []
    | some none => read_from_websocket rest
    | some (some a) => a :: read_from_websocket rest

/-- `True` when the input flow returns within the scripted window (some
message raises an uncaught exception). -/
def wsFlowStops : List WsRecv → Bool
  | [] => false
  | m :: rest =>
    match procWsMsg m with
    | none => true
    | some _ => wsFlowStops rest

/-- The JSON envelope of a well-formed `input` frame carrying `data`. -/
def inputMsg (s : List Nat) : Json :=
  Json.jobj [(codes "type", Json.jstr (codes "input")), (codes "data", Json.jstr s)]

/-- The JSON envelope of a `resize` frame carrying `cols` and `rows`. -/
def resizeMsg (cols rows : Int) : Json :=
  Json.jobj [(codes "type", Json.jstr (codes "resize")),
             (codes "cols", Json.jnum cols), (codes "rows", Json.jnum rows)]

/-! ## The handler's trace (`terminal_websocket`, main.py lines 490-571)

`terminal_websocket` accepts the socket, spawns the shell, runs the two
flows under `asyncio.gather`, and in `except`/`finally` sends an error
frame (on an exception escaping the `try` body, in particular a spawn
failure), terminates the process if still alive, and closes the socket. -/

/-- An externally visible action of the handler.  `registerSession` is the
vocabulary for inserting a session into a session table — the source has no
session table and no code path produces this action. -/
inductive LcAct where
  | sendErrorFrame (data : List Nat) : LcAct
  | terminateProc : LcAct
  | closeWs : LcAct
  | registerSession (sid : Nat) : LcAct
deriving DecidableEq

/-- The handler's action trace after `websocket.accept()`.
`spawnErr = some e`: `ptyprocess.PtyProcess.spawn` raised with message `e`;
the `except` block sends one error frame `"Terminal error: " + str(e)`, and
in `finally` the name `process` is unbound, so `process.isalive()` raises
`NameError`, swallowed by the bare `except` — no terminate — then the
socket is closed.
`spawnErr = none`: the relay runs (its actions abstracted as `relayActs`),
then `finally` terminates the process if still alive and closes the socket. -/
def terminal_websocket (spawnErr : Option (List Nat)) (relayActs : List LcAct)
    (aliveAtCleanup : Bool) : List LcAct :=
  match spawnErr with
  | some e => [.sendErrorFrame (codes "Terminal error: " ++ e), .closeWs]
  | none =>
    relayActs ++ (if aliveAtCleanup then [.terminateProc] else []) ++ [.closeWs]

/-- Count of error frames in a handler trace. -/
def countErrorFrames : List LcAct → Nat
  | [] => 0
  | .sendErrorFrame _ :: rest => countErrorFrames rest + 1
  | _ :: rest => countErrorFrames rest

/-- Does a handler trace register any session? -/
def registersSession : List LcAct → Bool
  | [] => false
  | .registerSession _ :: _ => true
  | _ :: rest => registersSession rest

/-! ## Session closure (`asyncio.gather` + `finally`)

`await asyncio.gather(read_from_pty(), read_from_websocket())` returns only
when both coroutines return (each swallows its own exceptions), and only
then does the `finally` block run: the session is Closed — process
terminated if needed, socket closed — exactly when both flows have
returned. -/

/-- Whether the session reaches the Closed state (the `finally` cleanup has
run) within an observation window described by the two flows' scripts: both
flows must have returned. -/
def sessionClosed (p : List PtyObs) (w : List WsRecv) : Bool :=
  ptyFlowStops p && wsFlowStops w

/-! ## Teardown (`finally` block, main.py lines 561-571)

The cleanup runs two atomic phases: (1) `if process.isalive():
process.terminate(force=True)` — two synchronous calls with no `await`
between them, hence atomic under asyncio's cooperative scheduling; (2)
`await websocket.close()` wrapped in `try/except: pass`, a no-op when the
socket is already closed. -/

/-- State acted on by the cleanup: process liveness, socket openness, and
counters for how many times the process was reaped and the socket
transitioned to closed. -/
structure TdState where
  alive : Bool
  wsOpen : Bool
  reaps : Nat
  closes : Nat
deriving DecidableEq

/-- Phase 1: `if process.isalive(): process.terminate(force=True)` —
terminate and reap only a live process. -/
def tdKill (s : TdState) : TdState :=
  if s.alive then { s with alive := false, reaps := s.reaps + 1 } else s

/-- Phase 2: `try: await websocket.close() except: pass` — closing an
already-closed socket raises and is swallowed, with no state change. -/
def tdClose (s : TdState) : TdState :=
  if s.wsOpen then { s with wsOpen := false, closes := s.closes + 1 } else s

/-- One full run of the `finally` cleanup. -/
def teardown (s : TdState) : TdState := tdClose (tdKill s)

/-- A cleanup phase, for spelling out interleavings of two callers. -/
inductive TdOp where
  | kill : TdOp
  | close : TdOp
deriving DecidableEq

/-- Run a sequence of cleanup phases left to right. -/
def runTdOps : List TdOp → TdState → TdState
  | [], s => s
  | .kill :: rest, s => runTdOps rest (tdKill s)
  | .close :: rest, s => runTdOps rest (tdClose s)

/-- The order-respecting interleavings of two callers each running
`[kill, close]`: of the six merges, every one yields the phase sequence
`[kill, close, kill, close]` or `[kill, kill, close, close]`. -/
def tdInterleavings : List (List TdOp) :=
  [[.kill, .close, .kill, .close], [.kill, .kill, .close, .close]]

/-! ## Cooperative scheduling of the two flows (asyncio event loop)

`terminal_websocket` runs both coroutines on one asyncio event loop: a
coroutine runs atomically between `await` points, and a *synchronous*
blocking call never yields the thread.  `read_from_pty`'s `process.read(1024)`
is `ptyprocess.PtyProcess.read`, a synchronous blocking `os.read` on the
PTY descriptor (despite the source comment "non-blocking with timeout"):
when no data is available it blocks the whole event loop.  The step
relation below models this: while the output flow sits inside `read`
(`ptyPc = inRead`), no other task step can run. -/

/-- Program counter of the `read_from_pty` coroutine. -/
inductive PtyPc where
  | loopTop : PtyPc
  | inRead : PtyPc
  | atSend (bs : List Nat) : PtyPc
  | atSleep : PtyPc
  | finished : PtyPc
deriving DecidableEq

/-- Program counter of the `read_from_websocket` coroutine. -/
inductive WsPc where
  | atRecv : WsPc
  | finished : WsPc
deriving DecidableEq

/-- State of one session's event loop together with its environment:
child liveness, data buffered on the PTY device, messages queued from the
client, both program counters, and the frames sent / writes performed. -/
structure Sys where
  alive : Bool
  ptyBuf : List (List Nat)
  wsIn : List WsRecv
  ptyPc : PtyPc
  wsPc : WsPc
  frames : List Frame
  writes : List InAct

/-- Transition labels: a scheduler step of a task, or an environment event
(the PTY device yields data, the child exits, the client sends a message). -/
inductive Lbl where
  | task : Lbl
  | ptyData (bs : List Nat) : Lbl
  | childExit : Lbl
  | wsMsg (m : WsRecv) : Lbl

/-- Writes performed by one `read_from_websocket` loop body. -/
def wsStepWrites (m : WsRecv) : List InAct :=
  match procWsMsg m with
  | some (some a) => [a]
  | _ => []

/-- Resulting program counter of one `read_from_websocket` loop body. -/
def wsStepPc (m : WsRecv) : WsPc :=
  match procWsMsg m with
  | none => .finished
  | some _ => .atRecv

/-- Small-step semantics of the session.  Task steps require the thread:
`wsProcess` demands `ptyPc ≠ inRead`, because a coroutine blocked inside
the synchronous `process.read` holds the event loop. -/
inductive Step : Sys → Lbl → Sys → Prop where
  | ptyCheckDead (s : Sys) : s.ptyPc = .loopTop → s.alive = false →
      Step s .task { s with ptyPc := .finished }
  | ptyEnterRead (s : Sys) : s.ptyPc = .loopTop → s.alive = true → s.ptyBuf = [] →
      Step s .task { s with ptyPc := .inRead }
  | ptyReadTop (s : Sys) (bs : List Nat) (rest : List (List Nat)) :
      s.ptyPc = .loopTop → s.alive = true → s.ptyBuf = bs :: rest →
      Step s .task { s with ptyBuf := rest
                            ptyPc := if bs.isEmpty then .atSleep else .atSend bs }
  | ptyReadResume (s : Sys) (bs : List Nat) (rest : List (List Nat)) :
      s.ptyPc = .inRead → s.ptyBuf = bs :: rest →
      Step s .task { s with ptyBuf := rest
                            ptyPc := if bs.isEmpty then .atSleep else .atSend bs }
  | ptyReadEof (s : Sys) : s.ptyPc = .inRead → s.alive = false → s.ptyBuf = [] →
      Step s .task { s with ptyPc := .finished }
  | ptySendDone (s : Sys) (bs : List Nat) : s.ptyPc = .atSend bs →
      Step s .task { s with ptyPc := .atSleep
                            frames := s.frames ++ [Frame.output (utf8DecodeReplace bs)] }
  | ptySleepDone (s : Sys) : s.ptyPc = .atSleep →
      Step s .task { s with ptyPc := .loopTop }
  | wsProcess (s : Sys) (m : WsRecv) (rest : List WsRecv) :
      s.wsPc = .atRecv → s.ptyPc ≠ .inRead → s.wsIn = m :: rest →
      Step s .task { s with wsIn := rest
                            wsPc := wsStepPc m
                            writes := s.writes ++ wsStepWrites m }
  | envPtyData (s : Sys) (bs : List Nat) :
      Step s (.ptyData bs) { s with ptyBuf := s.ptyBuf ++ [bs] }
  | envChildExit (s : Sys) : s.alive = true →
      Step s .childExit { s with alive := false }
  | envWsMsg (s : Sys) (m : WsRecv) :
      Step s (.wsMsg m) { s with wsIn := s.wsIn ++ [m] }

/-- Labels other than new PTY data and child exit: while the shell stays
silent and alive, a run of quiet steps is any schedule the loop and the
client can produce. -/
def quietLbl : Lbl → Bool
  | .ptyData _ => false
  | .childExit => false
  | _ => true

/-- A finite run of steps in which the PTY produces no data and the child
does not exit. -/
inductive QuietRun : Sys → Sys → Prop where
  | refl (s : Sys) : QuietRun s s
  | step {s : Sys} {l : Lbl} {s' s'' : Sys} : Step s l s' → quietLbl l = true →
      QuietRun s' s'' → QuietRun s s''

/-- The output flow is blocked inside `process.read`: no PTY data, child
alive, thread held inside the synchronous read. -/
def SysBlocked (s : Sys) : Prop :=
  s.ptyPc = .inRead ∧ s.ptyBuf = [] ∧ s.alive = true

/-! ## Helper lemmas -/

theorem utf8EncodeChar_ascii {b : Nat} (h : b < 0x80) : utf8EncodeChar b = [b] := by
  simp [utf8EncodeChar, h]

theorem utf8Encode_ascii {s : List Nat} (h : ∀ b ∈ s, b < 0x80) :
    utf8Encode s = s := by
  induction s with
  | nil => rfl
  | cons b rest ih =>
    have hb : b < 0x80 := h b (List.mem_cons_self b rest)
    have hr : ∀ x ∈ rest, x < 0x80 := fun x hx => h x (List.mem_cons_of_mem b hx)
    simp [utf8Encode, utf8EncodeChar_ascii hb] at *
    simpa [utf8Encode] using ih hr

theorem utf8Encode_append (s t : List Nat) :
    utf8Encode (s ++ t) = utf8Encode s ++ utf8Encode t := by
  simp [utf8Encode]

theorem utf8DecodeGo_ascii :
    ∀ (fuel : Nat) (bs : List Nat), bs.length ≤ fuel → (∀ b ∈ bs, b < 0x80) →
    utf8DecodeGo fuel bs = bs := by
  intro fuel
  induction fuel with
  | zero =>
    intro bs hlen _
    cases bs with
    | nil => rfl
    | cons b rest => simp at hlen
  | succ n ih =>
    intro bs hlen h
    cases bs with
    | nil => rfl
    | cons b rest =>
      have hb : b < 0x80 := h b (List.mem_cons_self b rest)
      have hr : ∀ x ∈ rest, x < 0x80 := fun x hx => h x (List.mem_cons_of_mem b hx)
      have hlen' : rest.length ≤ n := by simpa using hlen
      simp [utf8DecodeGo, hb, ih rest hlen' hr]

theorem utf8DecodeReplace_ascii {bs : List Nat} (h : ∀ b ∈ bs, b < 0x80) :
    utf8DecodeReplace bs = bs :=
  utf8DecodeGo_ascii bs.length bs le_rfl h

/-- Frames sent while the output flow has not yet stopped distribute over
script concatenation. -/
theorem read_from_pty_append {pre : List PtyObs} (rest : List PtyObs)
    (h : ptyFlowStops pre = false) :
    read_from_pty (pre ++ rest) = read_from_pty pre ++ read_from_pty rest := by
  induction pre with
  | nil => simp [read_from_pty]
  | cons o pre' ih =>
    cases o with
    | dead => simp [ptyFlowStops] at h
    | eof => simp [ptyFlowStops] at h
    | rerr => simp [ptyFlowStops] at h
    | data bs =>
      have h' : ptyFlowStops pre' = false := by simpa [ptyFlowStops] using h
      by_cases he : bs.isEmpty
      · simp [read_from_pty, he, ih h']
      · simp [read_from_pty, he, ih h']

/-- Once the liveness check observes the child dead, later observations
contribute no frames. -/
theorem read_from_pty_dead_cut (pre post : List PtyObs) :
    read_from_pty (pre ++ PtyObs.dead :: post) =
      read_from_pty (pre ++ [PtyObs.dead]) := by
  induction pre with
  | nil => simp [read_from_pty]
  | cons o pre' ih =>
    cases o with
    | dead => simp [read_from_pty]
    | eof => simp [read_from_pty]
    | rerr => simp [read_from_pty]
    | data bs =>
      by_cases he : bs.isEmpty
      · simpa [read_from_pty, he] using ih
      · simpa [read_from_pty, he] using ih

/-- Same for a read that raises `EOFError`. -/
theorem read_from_pty_eof_cut (pre post : List PtyObs) :
    read_from_pty (pre ++ PtyObs.eof :: post) =
      read_from_pty (pre ++ [PtyObs.eof]) := by
  induction pre with
  | nil => simp [read_from_pty]
  | cons o pre' ih =>
    cases o with
    | dead => simp [read_from_pty]
    | eof => simp [read_from_pty]
    | rerr => simp [read_from_pty]
    | data bs =>
      by_cases he : bs.isEmpty
      · simpa [read_from_pty, he] using ih
      · simpa [read_from_pty, he] using ih

/-- On a script of pure data chunks the output flow emits one frame per
nonempty chunk, in order. -/
theorem read_from_pty_chunks (chunks : List (List Nat)) :
    read_from_pty (chunks.map PtyObs.data) =
      (chunks.filter (fun c => !c.isEmpty)).map
        (fun c => Frame.output (utf8DecodeReplace c)) := by
  induction chunks with
  | nil => rfl
  | cons c rest ih =>
    by_cases he : c.isEmpty
    · simp [read_from_pty, he, ih]
    · simp [read_from_pty, he, ih]

/-- Actions performed while the input flow has not yet stopped distribute
over script concatenation. -/
theorem read_from_websocket_append {pre : List WsRecv} (rest : List WsRecv)
    (h : wsFlowStops pre = false) :
    read_from_websocket (pre ++ rest) =
      read_from_websocket pre ++ read_from_websocket rest := by
  induction pre with
  | nil => simp [read_from_websocket]
  | cons m pre' ih =>
    cases hp : procWsMsg m with
    | none => simp [wsFlowStops, hp] at h
    | some oa =>
      have h' : wsFlowStops pre' = false := by simpa [wsFlowStops, hp] using h
      cases oa with
      | none => simp [read_from_websocket, hp, ih h']
      | some a => simp [read_from_websocket, hp, ih h']

/-- Processing a well-formed `input` frame writes exactly the UTF-8
encoding of its `data` and continues. -/
theorem procWsMsg_inputMsg (s : List Nat) :
    procWsMsg (.msg (inputMsg s)) = some (some (.write (utf8Encode s))) := by
  have hdt : codes "data" = codes "type" ↔ False := by decide
  have htt : codes "type" = codes "type" ↔ True := by decide
  have hdd : codes "data" = codes "data" ↔ True := by decide
  have hii : Json.isStr (Json.jstr (codes "input")) (codes "input") = true := by
    decide
  simp [procWsMsg, inputMsg, lookupLast, hdt, htt, hdd, hii]

/-- Every action the input flow can perform is a `write`; in particular it
never invokes the supervisor's resize operation, on any message. -/
theorem procWsMsg_shape (m : WsRecv) :
    procWsMsg m = none ∨ procWsMsg m = some none ∨
      ∃ bs, procWsMsg m = some (some (.write bs)) := by
  cases m with
  | disconnect => exact Or.inl rfl
  | parseError => exact Or.inl rfl
  | msg j =>
    cases j with
    | jnull => exact Or.inl rfl
    | jbool b => exact Or.inl rfl
    | jnum n => exact Or.inl rfl
    | jstr s => exact Or.inl rfl
    | jarr xs => exact Or.inl rfl
    | jobj fields =>
      simp only [procWsMsg]
      cases lookupLast fields (codes "type") with
      | none => exact Or.inr (Or.inl rfl)
      | some t =>
        by_cases ht : t.isStr (codes "input") = true
        · simp only [ht, if_true]
          cases lookupLast fields (codes "data") with
          | none => exact Or.inr (Or.inr ⟨_, rfl⟩)
          | some v =>
            cases v with
            | jstr s => exact Or.inr (Or.inr ⟨_, rfl⟩)
            | jnull => exact Or.inl rfl
            | jbool b => exact Or.inl rfl
            | jnum n => exact Or.inl rfl
            | jarr xs => exact Or.inl rfl
            | jobj fs => exact Or.inl rfl
        · simp only [Bool.not_eq_true] at ht
          simp [ht]

/-- The input flow never performs a resize action. -/
theorem resize_not_in_read_from_websocket (script : List WsRecv) (c r : Int) :
    InAct.resize c r ∉ read_from_websocket script := by
  induction script with
  | nil => simp [read_from_websocket]
  | cons m rest ih =>
    rcases procWsMsg_shape m with h | h | ⟨bs, h⟩
    · simp [read_from_websocket, h]
    · simp [read_from_websocket, h, ih]
    · simp [read_from_websocket, h, ih]

/-- A quiet step from a blocked state leaves the output flow blocked and
performs no write, sends no frame, and does not move the input flow: the
only enabled quiet transition is the client queueing a further message. -/
theorem blocked_quiet_step {s : Sys} {l : Lbl} {s' : Sys}
    (hb : SysBlocked s) (hst : Step s l s') (hq : quietLbl l = true) :
    SysBlocked s' ∧ s'.writes = s.writes ∧ s'.frames = s.frames ∧
      s'.wsPc = s.wsPc := by
  obtain ⟨hpc, hbuf, halive⟩ := hb
  cases hst with
  | ptyCheckDead h1 h2 => rw [hpc] at h1; cases h1
  | ptyEnterRead h1 h2 h3 => rw [hpc] at h1; cases h1
  | ptyReadTop bs rest h1 h2 h3 => rw [hpc] at h1; cases h1
  | ptyReadResume bs rest h1 h2 => rw [hbuf] at h2; cases h2
  | ptyReadEof h1 h2 h3 => rw [halive] at h2; cases h2
  | ptySendDone bs h1 => rw [hpc] at h1; cases h1
  | ptySleepDone h1 => rw [hpc] at h1; cases h1
  | wsProcess m rest h1 h2 h3 => exact absurd hpc h2
  | envPtyData bs => simp [quietLbl] at hq
  | envChildExit h1 => simp [quietLbl] at hq
  | envWsMsg m => exact ⟨⟨hpc, hbuf, halive⟩, rfl, rfl, rfl⟩

/-- While the PTY stays silent and the child alive, no run of steps makes
the input flow progress: no write ever happens, no frame is sent, and the
output flow stays stuck inside `process.read`. -/
theorem blocked_quiet_run {s s' : Sys} (hb : SysBlocked s)
    (hr : QuietRun s s') :
    SysBlocked s' ∧ s'.writes = s.writes ∧ s'.frames = s.frames ∧
      s'.wsPc = s.wsPc := by
  induction hr with
  | refl s => exact ⟨hb, rfl, rfl, rfl⟩
  | step hst hq _ ih =>
    obtain ⟨hb', hw, hf, hp⟩ := blocked_quiet_step hb hst hq
    obtain ⟨hb'', hw', hf', hp'⟩ := ih hb'
    exact ⟨hb'', hw'.trans hw, hf'.trans hf, hp'.trans hp⟩

/-- Initial state of a fresh session: child alive, shell silent, no client
messages yet, output flow at its loop head, input flow at its receive. -/
def sysInit : Sys :=
  { alive := true, ptyBuf := [], wsIn := [], ptyPc := .loopTop,
    wsPc := .atRecv, frames := [], writes := [] }

/-- State after the output flow enters the blocking `process.read`. -/
def sysInRead : Sys := { sysInit with ptyPc := .inRead }

/-- State after the client then sends an `input` frame: the message is
queued on the transport, but the event loop is held inside `process.read`. -/
def sysBlocked : Sys :=
  { sysInRead with wsIn := [WsRecv.msg (inputMsg (codes "ls"))] }

/-- Processing a `resize` frame: its type is not the string `"input"`, so
the loop body does nothing and continues — no supervisor call at all. -/
theorem procWsMsg_resizeMsg (c r : Int) :
    procWsMsg (.msg (resizeMsg c r)) = some none := by
  have h1 : codes "cols" = codes "type" ↔ False := by decide
  have h2 : codes "rows" = codes "type" ↔ False := by decide
  have h3 : codes "type" = codes "type" ↔ True := by decide
  have h4 : Json.isStr (Json.jstr (codes "resize")) (codes "input") = false := by
    decide
  simp [procWsMsg, resizeMsg, lookupLast, h1, h2, h3, h4]

/-- On an all-ASCII, fully delivered byte stream, re-encoding the
concatenated frame data recovers the exact bytes the child wrote. -/
theorem ascii_chunks_concat (chunks : List (List Nat))
    (h : ∀ c ∈ chunks, ∀ b ∈ c, b < 0x80) :
    utf8Encode (outputData (read_from_pty (chunks.map PtyObs.data))) =
      chunks.flatten := by
  induction chunks with
  | nil => simp [read_from_pty, outputData, utf8Encode]
  | cons c rest ih =>
    have hc : ∀ b ∈ c, b < 0x80 := h c (List.mem_cons_self c rest)
    have hr : ∀ x ∈ rest, ∀ b ∈ x, b < 0x80 :=
      fun x hx => h x (List.mem_cons_of_mem c hx)
    by_cases he : c.isEmpty
    · have hc0 : c = [] := by simpa using he
      subst hc0
      simpa [read_from_pty] using ih hr
    · simp only [List.map_cons, read_from_pty, he, Bool.false_eq_true, if_false,
        outputData, List.flatten_cons]
      rw [utf8Encode_append, utf8DecodeReplace_ascii hc, utf8Encode_ascii hc,
        ih hr]

/-! ## Claims -/

/-- C1, counterexample.  The child writes the three bytes of `"€"`; the OS
delivers them as two reads (chunk boundaries are outside the program's
control).  Each chunk is decoded separately with `errors="replace"`, so the
split multi-byte character becomes replacement characters and the
concatenated `data` of the output frames no longer denotes the byte
sequence the child wrote — the claim's exact-byte equality fails. -/
theorem c1_counterexample :
    utf8Encode (outputData (read_from_pty
        [PtyObs.data [0xE2], PtyObs.data [0x82, 0xAC]])) ≠ [0xE2, 0x82, 0xAC] := by
  decide

/-- C1, amended.  Per-chunk fidelity does hold: (1) when every delivered
byte is ASCII (`< 0x80`), re-encoding the concatenated `data` fields of the
output frames recovers exactly the delivered byte sequence, with no
reordering, duplication, or omission; (2) in general the flow emits exactly
one `output` frame per nonempty chunk, in delivery order, carrying the
chunk's lossy UTF-8 decode — byte-exactness fails only through the
per-chunk decode of non-ASCII data (see the counterexample). -/
theorem c1_chunkwise_order_and_ascii_exactness :
    (∀ chunks : List (List Nat), (∀ c ∈ chunks, ∀ b ∈ c, b < 0x80) →
      utf8Encode (outputData (read_from_pty (chunks.map PtyObs.data))) =
        chunks.flatten)
    ∧ ∀ chunks : List (List Nat),
        read_from_pty (chunks.map PtyObs.data) =
          (chunks.filter (fun c => !c.isEmpty)).map
            (fun c => Frame.output (utf8DecodeReplace c)) :=
  ⟨ascii_chunks_concat, read_from_pty_chunks⟩

/-- C1, witness: an ASCII stream (`"hi"`) delivered in one chunk is
reproduced byte-exactly. -/
theorem c1_witness :
    (∀ c ∈ [codes "hi"], ∀ b ∈ c, b < 0x80) ∧
      utf8Encode (outputData (read_from_pty ([codes "hi"].map PtyObs.data))) =
        ([codes "hi"] : List (List Nat)).flatten :=
  ⟨by decide, c1_chunkwise_order_and_ascii_exactness.1 [codes "hi"] (by decide)⟩

/-- C2, counterexample.  A frame that is not valid JSON makes
`receive_json` raise; the `except Exception` clause of
`read_from_websocket` exits the loop, so the input flow terminates and a
subsequent well-formed `input` frame is never written to the shell —
contradicting the claim that the flow continues and the later frame still
reaches the shell. -/
theorem c2_counterexample :
    read_from_websocket [WsRecv.parseError, WsRecv.msg (inputMsg (codes "hi"))]
        = []
      ∧ wsFlowStops [WsRecv.parseError] = true := by
  decide

/-- C2, amended.  A malformed frame that still parses as a JSON object
(wrong or missing `type`) is discarded with no effect and the flow
continues — subsequent frames are processed as if it had never arrived.  A
frame that fails JSON parsing (or whose value is not an object, or an
`input` frame whose `data` is not a string) instead terminates the input
flow (see the counterexample). -/
theorem c2_nonconforming_object_frames_dropped :
    ∀ (fields : List (List Nat × Json)) (pre rest : List WsRecv),
      wsFlowStops pre = false →
      (∀ t, lookupLast fields (codes "type") = some t →
        t.isStr (codes "input") = false) →
      read_from_websocket (pre ++ WsRecv.msg (Json.jobj fields) :: rest) =
        read_from_websocket (pre ++ rest) := by
  intro fields pre rest hs ht
  rw [read_from_websocket_append _ hs, read_from_websocket_append _ hs]
  cases hL : lookupLast fields (codes "type") with
  | none => simp [read_from_websocket, procWsMsg, hL]
  | some t => simp [read_from_websocket, procWsMsg, hL, ht t hL]

/-- C2, witness: an empty JSON object is dropped and the following `input`
frame is still processed. -/
theorem c2_witness :
    wsFlowStops [] = false
      ∧ (∀ t, lookupLast [] (codes "type") = some t →
          Json.isStr t (codes "input") = false)
      ∧ read_from_websocket
          ([] ++ WsRecv.msg (Json.jobj []) :: [WsRecv.msg (inputMsg (codes "hi"))])
          = read_from_websocket ([] ++ [WsRecv.msg (inputMsg (codes "hi"))]) :=
  ⟨rfl, fun t h => by simp [lookupLast] at h,
    c2_nonconforming_object_frames_dropped [] [] [WsRecv.msg (inputMsg (codes "hi"))]
      rfl (fun t h => by simp [lookupLast] at h)⟩

/-- C3, counterexample.  The child's exit is detected (`isalive` returns
`False`, the output flow stops), yet over a window of any length with no
client activity the session never reaches Closed: `asyncio.gather` still
waits on `read_from_websocket`, whose blocking `receive_json` nothing
wakes, so the `finally` cleanup does not run within any bound of exit
detection. -/
theorem c3_counterexample :
    sessionClosed [PtyObs.dead] [] = false
      ∧ ptyFlowStops [PtyObs.dead] = true := by
  decide

/-- C3, amended.  After the child's exit is detected (failed liveness
check, or `EOFError` from the read) no further `output` frames are emitted;
but the session reaches Closed only when the input flow also ends — nothing
forces the input flow's blocking receive to wake, so with no client
activity the session never closes, and closure is not bounded by the
backoff interval. -/
theorem c3_post_exit_silent_but_close_unbounded :
    (∀ pre post, read_from_pty (pre ++ PtyObs.dead :: post) =
        read_from_pty (pre ++ [PtyObs.dead]))
    ∧ (∀ pre post, read_from_pty (pre ++ PtyObs.eof :: post) =
        read_from_pty (pre ++ [PtyObs.eof]))
    ∧ ∀ p, sessionClosed p [] = false :=
  ⟨read_from_pty_dead_cut, read_from_pty_eof_cut,
    fun p => by simp [sessionClosed, wsFlowStops]⟩

/-- C4.  When `PtyProcess.spawn` raises, the handler's trace is exactly one
attempted `error` frame (best effort) followed by closing the transport; in
the `finally` block the unbound `process` raises `NameError`, swallowed by
the bare `except`, so nothing else happens — and no code path of the
handler ever registers a session (the source has no session table). -/
theorem c4_spawn_failure_single_error_close_no_registration :
    ∀ (e : List Nat) (relayActs : List LcAct) (alive : Bool),
      countErrorFrames (terminal_websocket (some e) relayActs alive) = 1
      ∧ (terminal_websocket (some e) relayActs alive).getLast? =
          some LcAct.closeWs
      ∧ registersSession (terminal_websocket (some e) relayActs alive) = false :=
  fun _ _ _ => ⟨rfl, rfl, rfl⟩

/-- C5.  The cleanup is idempotent: from a live session, running it twice
in sequence equals running it once (the second run observes a dead process
and a closed socket and does nothing), it reaps exactly once and closes
exactly once, and every interleaving of two concurrent callers' phases
(the kill phase is atomic — no `await` between `isalive` and `terminate`)
produces the same single-teardown state. -/
theorem c5_teardown_idempotent :
    ∀ s : TdState, s.alive = true → s.wsOpen = true →
      teardown (teardown s) = teardown s
      ∧ (teardown s).reaps = s.reaps + 1
      ∧ (teardown s).closes = s.closes + 1
      ∧ ∀ ops ∈ tdInterleavings, runTdOps ops s = teardown s := by
  intro s h1 h2
  obtain ⟨a, w, r, c⟩ := s
  simp only at h1 h2
  subst h1; subst h2
  refine ⟨?_, ?_, ?_, ?_⟩ <;>
    simp [teardown, tdKill, tdClose, tdInterleavings, runTdOps]

/-- C5, witness: concrete live session with zeroed counters. -/
theorem c5_witness :
    (⟨true, true, 0, 0⟩ : TdState).alive = true
      ∧ (⟨true, true, 0, 0⟩ : TdState).wsOpen = true
      ∧ (teardown (teardown ⟨true, true, 0, 0⟩) = teardown ⟨true, true, 0, 0⟩
        ∧ (teardown (⟨true, true, 0, 0⟩ : TdState)).reaps =
            (⟨true, true, 0, 0⟩ : TdState).reaps + 1
        ∧ (teardown (⟨true, true, 0, 0⟩ : TdState)).closes =
            (⟨true, true, 0, 0⟩ : TdState).closes + 1
        ∧ ∀ ops ∈ tdInterleavings,
            runTdOps ops ⟨true, true, 0, 0⟩ = teardown ⟨true, true, 0, 0⟩) :=
  ⟨rfl, rfl, c5_teardown_idempotent ⟨true, true, 0, 0⟩ rfl rfl⟩

/-- C6.  The claim fails on the code: `process.read(1024)` is a synchronous
blocking read executed on the event loop thread (the comment "non-blocking
with timeout" notwithstanding), so the output flow's suspension inside it
does block the input flow.  From a fresh session the system reaches, by an
actual step and a client message, a state where an `input` frame is queued
while the output flow sits inside `read`; in every run from there in which
the shell stays silent and alive, no write (and no frame, and no input-flow
progress) ever happens — the input flow is starved. -/
theorem c6_blocking_read_starves_input_flow :
    Step sysInit Lbl.task sysInRead
    ∧ Step sysInRead (Lbl.wsMsg (WsRecv.msg (inputMsg (codes "ls")))) sysBlocked
    ∧ ∀ s', QuietRun sysBlocked s' →
        s'.writes = [] ∧ s'.frames = [] ∧ s'.ptyPc = PtyPc.inRead
          ∧ s'.wsPc = WsPc.atRecv := by
  refine ⟨Step.ptyEnterRead sysInit rfl rfl rfl, Step.envWsMsg sysInRead _, ?_⟩
  intro s' hr
  have hb : SysBlocked sysBlocked := ⟨rfl, rfl, rfl⟩
  obtain ⟨hb', hw, hf, hp⟩ := blocked_quiet_run hb hr
  exact ⟨hw.trans rfl, hf.trans rfl, hb'.1, hp.trans rfl⟩

/-- C6, witness: the blocked state itself. -/
theorem c6_witness :
    sysBlocked.writes = [] ∧ sysBlocked.frames = []
      ∧ sysBlocked.ptyPc = PtyPc.inRead ∧ sysBlocked.wsPc = WsPc.atRecv :=
  c6_blocking_read_starves_input_flow.2.2 sysBlocked (QuietRun.refl sysBlocked)

/-- C7.  Every `input` frame the input flow processes has its `data`
written to the PTY as exactly its UTF-8 encoding — no escaping, no
filtering: control bytes pass through untouched (witnessed with ETX,
`0x03`). -/
theorem c7_input_written_verbatim :
    ∀ (pre : List WsRecv) (s : List Nat) (rest : List WsRecv),
      wsFlowStops pre = false →
      read_from_websocket (pre ++ WsRecv.msg (inputMsg s) :: rest) =
        read_from_websocket pre
          ++ InAct.write (utf8Encode s) :: read_from_websocket rest := by
  intro pre s rest h
  rw [read_from_websocket_append _ h]
  simp [read_from_websocket, procWsMsg_inputMsg]

/-- C7, witness: an `input` frame whose data is the single control
character ETX (`0x03`, the interrupt character) is written verbatim. -/
theorem c7_witness :
    wsFlowStops [] = false
      ∧ read_from_websocket ([] ++ WsRecv.msg (inputMsg [0x03]) :: []) =
          read_from_websocket []
            ++ InAct.write (utf8Encode [0x03]) :: read_from_websocket [] :=
  ⟨rfl, c7_input_written_verbatim [] [0x03] [] rfl⟩

/-- C8.  Every nonempty chunk read from the PTY is emitted as one `output`
frame whose `data` is the chunk decoded as UTF-8 with lossy replacement,
and the flow continues afterwards — invalid bytes never reject the frame or
end the session (witnessed with the invalid byte `0xFF`). -/
theorem c8_output_frame_data_is_lossy_decode :
    ∀ (pre : List PtyObs) (bs : List Nat) (rest : List PtyObs),
      ptyFlowStops pre = false → bs ≠ [] →
      read_from_pty (pre ++ PtyObs.data bs :: rest) =
        read_from_pty pre
          ++ Frame.output (utf8DecodeReplace bs) :: read_from_pty rest := by
  intro pre bs rest h hbs
  rw [read_from_pty_append _ h]
  have he : bs.isEmpty = false := by
    cases bs with
    | nil => exact absurd rfl hbs
    | cons x xs => rfl
  simp [read_from_pty, he]

/-- C8, witness: a chunk starting with the invalid byte `0xFF` yields one
frame whose data replaces the invalid byte, and the session survives. -/
theorem c8_witness :
    ptyFlowStops [] = false ∧ ([0xFF, 0x61] : List Nat) ≠ []
      ∧ read_from_pty ([] ++ PtyObs.data [0xFF, 0x61] :: []) =
          read_from_pty []
            ++ Frame.output (utf8DecodeReplace [0xFF, 0x61]) :: read_from_pty [] :=
  ⟨rfl, by decide, c8_output_frame_data_is_lossy_decode [] [0xFF, 0x61] [] rfl
    (by decide)⟩

/-- C9, counterexample.  A well-formed `resize` frame with `cols = 80`,
`rows = 24` produces no supervisor action at all — `read_from_websocket`
has no `resize` branch, so the claimed invocation of the Supervisor's
resize operation never happens. -/
theorem c9_counterexample :
    read_from_websocket [WsRecv.msg (resizeMsg 80 24)] = [] := by
  decide

/-- C9, amended.  `resize` frames are silently ignored: the frame is
dropped with no effect and the flow continues, and on no message script
does the input flow ever invoke the supervisor's resize operation. -/
theorem c9_resize_frames_silently_ignored :
    (∀ (c r : Int) (pre rest : List WsRecv), wsFlowStops pre = false →
      read_from_websocket (pre ++ WsRecv.msg (resizeMsg c r) :: rest) =
        read_from_websocket (pre ++ rest))
    ∧ ∀ (script : List WsRecv) (c r : Int),
        InAct.resize c r ∉ read_from_websocket script := by
  refine ⟨?_, resize_not_in_read_from_websocket⟩
  intro c r pre rest h
  rw [read_from_websocket_append _ h, read_from_websocket_append _ h]
  simp [read_from_websocket, procWsMsg_resizeMsg]

/-- C9, witness: a `resize` frame before an `input` frame leaves the action
trace exactly as without it. -/
theorem c9_witness :
    wsFlowStops [] = false
      ∧ read_from_websocket
          ([] ++ WsRecv.msg (resizeMsg 80 24) :: [WsRecv.msg (inputMsg (codes "hi"))])
          = read_from_websocket ([] ++ [WsRecv.msg (inputMsg (codes "hi"))]) :=
  ⟨rfl, c9_resize_frames_silently_ignored.1 80 24 []
    [WsRecv.msg (inputMsg (codes "hi"))] rfl⟩

/-- C10.  A well-formed JSON object frame with `type = "input"` and no
`data` field defaults to the empty string (`message.get("data", "")`): the
flow performs a write of zero bytes, raises nothing, and continues with the
next frame. -/
theorem c10_missing_data_writes_empty :
    ∀ (fields : List (List Nat × Json)) (pre rest : List WsRecv),
      wsFlowStops pre = false →
      lookupLast fields (codes "type") = some (Json.jstr (codes "input")) →
      lookupLast fields (codes "data") = none →
      read_from_websocket (pre ++ WsRecv.msg (Json.jobj fields) :: rest) =
        read_from_websocket pre ++ InAct.write [] :: read_from_websocket rest := by
  intro fields pre rest h h1 h2
  rw [read_from_websocket_append _ h]
  have hi : Json.isStr (Json.jstr (codes "input")) (codes "input") = true := by
    decide
  simp [read_from_websocket, procWsMsg, h1, h2, hi, utf8Encode]

/-- C10, witness: `{"type": "input"}` writes zero bytes and the next
`input` frame is still processed. -/
theorem c10_witness :
    wsFlowStops [] = false
      ∧ lookupLast [(codes "type", Json.jstr (codes "input"))] (codes "type") =
          some (Json.jstr (codes "input"))
      ∧ lookupLast [(codes "type", Json.jstr (codes "input"))] (codes "data") =
          none
      ∧ read_from_websocket
          ([] ++ WsRecv.msg (Json.jobj [(codes "type", Json.jstr (codes "input"))])
            :: [WsRecv.msg (inputMsg [0x68])])
          = read_from_websocket []
              ++ InAct.write [] :: read_from_websocket [WsRecv.msg (inputMsg [0x68])] :=
  ⟨rfl, rfl, rfl,
    c10_missing_data_writes_empty [(codes "type", Json.jstr (codes "input"))] []
      [WsRecv.msg (inputMsg [0x68])] rfl rfl rfl⟩
